import Mathlib

/-!
# AVGP: player lookup, season statistics and the baseline batting average

A verification development for the two source files of the repository:

* `src/server.js`: the `/api/search` and `/api/player/:id` handlers, which read
  player candidates and a career table out of a parsed markup document;
* `src/public/app.js`: the browser side, which picks one candidate for a query
  (`findPlayer`) and shows the baseline projection (`calcAVG`, `toFixed3`).

JavaScript strings are embedded as Lean strings, handled through their list of
characters.  The markup library is embedded at the level of its selections: a
selection is the list of elements a selector matched, in document order.
Numbers the browser computes with are embedded as exact rationals; the
rounding of binary64 products and quotients is not part of the embedding.
-/

namespace AVGP

/-! ## JavaScript strings -/

/-- White space and line terminators of ECMAScript, the characters that
`String.prototype.trim` removes from both ends of a string. -/
def isJSWhitespace (c : Char) : Bool :=
  let n := c.toNat
  n == 0x09 || n == 0x0A || n == 0x0B || n == 0x0C || n == 0x0D || n == 0x20 ||
  n == 0xA0 || n == 0x1680 || (0x2000 ≤ n && n ≤ 0x200A) || n == 0x2028 ||
  n == 0x2029 || n == 0x202F || n == 0x205F || n == 0x3000 || n == 0xFEFF

/-- Trimming of a list of characters at both ends. -/
def trimChars (cs : List Char) : List Char :=
  ((cs.dropWhile isJSWhitespace).reverse.dropWhile isJSWhitespace).reverse

/-- The method `String.prototype.trim`. -/
def jsTrim (s : String) : String := ⟨trimChars s.data⟩

/-- The character class `\d` of a JavaScript regular expression without the
unicode-sets flag: the ten ASCII digits. -/
def isDecimalDigit (c : Char) : Bool := 0x30 ≤ c.toNat && c.toNat ≤ 0x39

/-- The test `/^\d+$/.test(s)`: at least one character, all of them digits. -/
def allDigits (s : String) : Bool := !s.data.isEmpty && s.data.all isDecimalDigit

/-! ## JavaScript values on the wire -/

/-- The values a field of a JSON-decoded candidate can hold, as far as the
selection code looks at them.  `num` holds the integer-valued numbers below
`10 ^ 21` in magnitude, for which `String` prints the plain decimal digits. -/
inductive JSValue where
  | undefined
  | null
  | bool (b : Bool)
  | num (n : Int)
  | str (s : String)
  deriving DecidableEq, Repr

/-- The conversion `String(v)`. -/
def JSValue.toJSString : JSValue → String
  | .undefined => "undefined"
  | .null => "null"
  | .bool true => "true"
  | .bool false => "false"
  | .num n => toString n
  | .str s => s

/-- The method `Array.prototype.find`: the first element, in index order, on
which the predicate holds, or nothing (`undefined`). -/
def jsFind {α : Type} (p : α → Bool) : List α → Option α
  | [] => none
  | x :: xs => if p x then some x else jsFind p xs

/-- The element `x` is the first element of `xs`, in sequence order, with the
property `P`: `xs` splits into a part without `P`, then `x`, then the rest. -/
def IsFirstWith {α : Type} (P : α → Prop) (xs : List α) (x : α) : Prop :=
  ∃ before after, xs = before ++ x :: after ∧ P x ∧ ∀ y ∈ before, ¬ P y

/-! ## Candidate selection (`src/public/app.js`) -/

/-- A candidate as the browser receives it from `/api/search`. -/
structure PlayerCandidate where
  id : JSValue
  name : String
  team : String
  position : String
  image : Option String
  deriving DecidableEq, Repr

/-- The function `findPlayer` of `app.js`.  `searchPlayers` stands for the
fetch of `/api/search`: it gives the candidate array the server answered for
the trimmed query, and the empty array when the fetch failed.  The result
`none` is the `null` of the source. -/
def findPlayer (searchPlayers : String → List PlayerCandidate) (query : String) :
    Option PlayerCandidate :=
  if query = "" then none
  else
    let trimmed := jsTrim query
    if trimmed = "" then none
    else
      match searchPlayers trimmed with
      | [] => none
      | first :: rest =>
        let players := first :: rest
        if allDigits trimmed then
          match jsFind (fun p => decide (p.id.toJSString = trimmed)) players with
          | some p => some p
          | none => some first
        else
          match jsFind (fun p => decide (p.name = trimmed)) players with
          | some exactMatch => some exactMatch
          | none => some first

/-! ## Numbers read by `parseInt` (`src/server.js`) -/

/-- The results of `parseInt(text, 10)`: not-a-number, an infinity, or an
integer.  The negative zero that `parseInt("-0", 10)` gives is embedded as
`int 0`; like zero it is falsy, so `|| 0` maps both to `0`. -/
inductive ParsedInt where
  | nan
  | infinity (negative : Bool)
  | int (z : Int)
  deriving DecidableEq, Repr

/-- The binary64 value nearest to a natural number, ties to the even
significand; `none` when the value rounds past the largest finite number. -/
def roundBinary64 (n : Nat) : Option Nat :=
  if n < 2 ^ 53 then some n
  else
    let sh := Nat.log2 n - 52
    let q := n / 2 ^ sh
    let r := n % 2 ^ sh
    let half := 2 ^ (sh - 1)
    let q' := if half < r ∨ (r = half ∧ q % 2 = 1) then q + 1 else q
    let v := q' * 2 ^ sh
    if v < 2 ^ 1024 then some v else none

/-- The value of one decimal digit character. -/
def digitValue (c : Char) : Nat := c.toNat - 0x30

/-- The mathematical integer a run of decimal digits denotes. -/
def digitsValue (cs : List Char) : Nat := cs.foldl (fun a c => 10 * a + digitValue c) 0

/-- The function `parseInt(s, 10)`: skip leading white space; a leading `-`
sets the sign; a leading `+` or `-` is removed; the longest run of decimal
digits that follows is the numeral.  No digit gives `NaN`; otherwise the
numeral's value is converted to the nearest binary64 number. -/
def parseInt10 (s : String) : ParsedInt :=
  let S := s.data.dropWhile isJSWhitespace
  let negative : Bool := S.head? == some '-'
  let S := if S.head? == some '+' || S.head? == some '-' then S.tail else S
  let Z := S.takeWhile isDecimalDigit
  if Z.isEmpty then .nan
  else
    match roundBinary64 (digitsValue Z) with
    | some v => .int (if negative then -(v : Int) else (v : Int))
    | none => .infinity negative

/-- The expression `x || 0` on a `parseInt` result: `NaN` and zero are falsy. -/
def ParsedInt.orZero : ParsedInt → ParsedInt
  | .nan => .int 0
  | .int 0 => .int 0
  | x => x

/-! ## Selections of the markup library -/

/-- An element of the parsed document: its attributes, first occurrence of a
name first, and the text of its descendants joined in document order. -/
structure Element where
  attribs : List (String × String)
  text : String
  deriving DecidableEq, Repr

/-- A selection: the elements a selector matched, in document order. -/
abbrev Selection := List Element

/-- The method `.text()`: the text of every matched element, joined. -/
def Selection.text (sel : Selection) : String := String.join (sel.map (fun e => e.text))

/-- The method `.attr(name)`: the attribute of the first matched element,
`none` (`undefined`) when nothing matched or the attribute is not there. -/
def Selection.attr (sel : Selection) (name : String) : Option String :=
  match sel with
  | [] => none
  | e :: _ => e.attribs.lookup name

/-- The wrapper `$(columns[i])`: the selection of the one cell at index `i`,
the empty selection when the index is past the last cell. -/
def cellAt (columns : Selection) (i : Nat) : Selection :=
  match columns.get? i with
  | some e => [e]
  | none => []

/-- The expression `$(columns[i]).text().trim()`. -/
def cellText (columns : Selection) (i : Nat) : String := jsTrim (cellAt columns i).text

/-! ## Profile extraction (`src/server.js`, `/api/player/:id`) -/

/-- One row of the career table.  The four rate fields hold what
`parseFloat(text) || 0` gives, of a type `F` the development leaves open. -/
structure SeasonStat (F : Type) where
  season : String
  team : String
  G : ParsedInt
  PA : ParsedInt
  AB : ParsedInt
  R : ParsedInt
  H : ParsedInt
  «2B» : ParsedInt
  «3B» : ParsedInt
  HR : ParsedInt
  RBI : ParsedInt
  SB : ParsedInt
  CS : ParsedInt
  BB : ParsedInt
  HBP : ParsedInt
  SO : ParsedInt
  GDP : ParsedInt
  AVG : F
  OBP : F
  SLG : F
  OPS : F
  deriving DecidableEq, Repr

/-- The object literal `stat` built for one row from its `td` cells.
`parseFloatOrZero` stands for `parseFloat(text) || 0`. -/
def mkStat {F : Type} (parseFloatOrZero : String → F) (columns : Selection) : SeasonStat F :=
  { season := cellText columns 0
    team := cellText columns 1
    G := (parseInt10 (cellText columns 2)).orZero
    PA := (parseInt10 (cellText columns 3)).orZero
    AB := (parseInt10 (cellText columns 4)).orZero
    R := (parseInt10 (cellText columns 5)).orZero
    H := (parseInt10 (cellText columns 6)).orZero
    «2B» := (parseInt10 (cellText columns 7)).orZero
    «3B» := (parseInt10 (cellText columns 8)).orZero
    HR := (parseInt10 (cellText columns 9)).orZero
    RBI := (parseInt10 (cellText columns 10)).orZero
    SB := (parseInt10 (cellText columns 11)).orZero
    CS := (parseInt10 (cellText columns 12)).orZero
    BB := (parseInt10 (cellText columns 13)).orZero
    HBP := (parseInt10 (cellText columns 14)).orZero
    SO := (parseInt10 (cellText columns 15)).orZero
    GDP := (parseInt10 (cellText columns 16)).orZero
    AVG := parseFloatOrZero (cellText columns 17)
    OBP := parseFloatOrZero (cellText columns 18)
    SLG := parseFloatOrZero (cellText columns 19)
    OPS := parseFloatOrZero (cellText columns 20) }

/-- The loop over `.record-table tbody tr`: `rows` holds, for each body row in
document order, the selection of its `td` cells; a row with at least one cell
pushes its `stat` onto the array. -/
def extractCareer {F : Type} (parseFloatOrZero : String → F) (rows : List Selection) :
    List (SeasonStat F) :=
  rows.foldl
    (fun stats columns =>
      if columns.length > 0 then stats ++ [mkStat parseFloatOrZero columns] else stats)
    []

/-- The `season` the handler reads from the query string: the text of the
parameter, or the current year (a number) when the parameter is not there. -/
inductive SeasonParam where
  | text (s : String)
  | currentYear (year : Nat)
  deriving DecidableEq, Repr

/-- The call `season.toString()`. -/
def SeasonParam.toJSString : SeasonParam → String
  | .text s => s
  | .currentYear year => toString year

/-- The `stats` property of the response: one entry of the career, or the
empty object. -/
inductive Stats (F : Type) where
  | row (stat : SeasonStat F)
  | emptyObject
  deriving DecidableEq, Repr

/-- The expression `stats.find(stat => stat.season === season.toString()) || {}`. -/
def selectSeason {F : Type} (stats : List (SeasonStat F)) (season : SeasonParam) : Stats F :=
  match jsFind (fun stat => decide (stat.season = season.toJSString)) stats with
  | some currentSeasonStats => .row currentSeasonStats
  | none => .emptyObject

/-- The `playerInfo` object of the handler: `id` is the route parameter, the
six texts are trimmed `.text()` results, `image` is an `.attr('src')` result
(`none` is `undefined`). -/
structure PlayerInfo where
  id : String
  name : String
  team : String
  position : String
  birth : String
  height : String
  weight : String
  image : Option String
  deriving DecidableEq, Repr

/-- What the profile handler selects from the parsed page: the selections of
the seven identity selectors and, for each body row of the record table, the
selection of its cells. -/
structure ProfileDocument where
  playerName : Selection
  playerTeam : Selection
  playerPosition : Selection
  playerBirth : Selection
  playerHeight : Selection
  playerWeight : Selection
  playerImage : Selection
  recordRows : List Selection
  deriving DecidableEq, Repr

/-- The object literal `playerInfo`. -/
def mkPlayerInfo (doc : ProfileDocument) (id : String) : PlayerInfo :=
  { id := id
    name := jsTrim doc.playerName.text
    team := jsTrim doc.playerTeam.text
    position := jsTrim doc.playerPosition.text
    birth := jsTrim doc.playerBirth.text
    height := jsTrim doc.playerHeight.text
    weight := jsTrim doc.playerWeight.text
    image := doc.playerImage.attr "src" }

/-- The object handed to `res.json` by the profile handler. -/
structure PlayerRecord (F : Type) where
  player : PlayerInfo
  stats : Stats F
  career : List (SeasonStat F)
  deriving DecidableEq, Repr

/-- The body of the `/api/player/:id` handler after the page was fetched. -/
def playerHandler {F : Type} (parseFloatOrZero : String → F) (doc : ProfileDocument)
    (id : String) (season : SeasonParam) : PlayerRecord F :=
  let playerInfo := mkPlayerInfo doc id
  let stats := extractCareer parseFloatOrZero doc.recordRows
  { player := playerInfo
    stats := selectSeason stats season
    career := stats }

/-! ## Search extraction (`src/server.js`, `/api/search`) -/

/-- The values the `.data(name)` accessor of the markup library gives.
`undecoded raw` marks an attribute text whose decoding needs binary64
arithmetic or `JSON.parse`, which the development does not embed: the value
may be a number, an object, an array or the text itself. -/
inductive DataValue where
  | undefined
  | null
  | bool (b : Bool)
  | num (n : Nat)
  | str (s : String)
  | undecoded (raw : String)
  deriving DecidableEq, Repr

/-- The characters `String(x)` can print for a number `x`: digits, sign, point,
exponent mark and the letters of `NaN` and `Infinity`. -/
def isNumberChar (c : Char) : Bool :=
  isDecimalDigit c || c == '+' || c == '-' || c == '.' || c == 'e' || c == 'N' ||
  c == 'a' || c == 'I' || c == 'n' || c == 'f' || c == 'i' || c == 't' || c == 'y'

/-- The test of the accessor for text that looks like a JSON object or array:
an opening brace with a closing brace at the end, or the same with brackets. -/
def looksLikeJSON (cs : List Char) : Bool :=
  (cs.head? == some (Char.ofNat 0x7B) && cs.getLast? == some (Char.ofNat 0x7D) &&
    decide (2 ≤ cs.length)) ||
  (cs.head? == some '[' && cs.getLast? == some ']' && decide (2 ≤ cs.length))

/-- The decoding the accessor applies to attribute text: the words `null`,
`true`, `false` become the primitives; text equal to `String(Number(text))`
becomes that number; text shaped like JSON is parsed; anything else stays
text.  The number test is settled here for text with a character no number
prints, for the empty text, and for runs of digits: a run with a leading zero
or of value `10 ^ 21` and more is never printed back, a run without leading
zero of value below `2 ^ 53` always is. -/
def parseDataValue (value : String) : DataValue :=
  if value = "null" then .null
  else if value = "true" then .bool true
  else if value = "false" then .bool false
  else
    let cs := value.data
    if cs.isEmpty || cs.any (fun c => !isNumberChar c) then
      if looksLikeJSON cs then .undecoded value else .str value
    else if cs.all isDecimalDigit then
      if decide (1 < cs.length) && cs.head? == some '0' then .str value
      else if digitsValue cs < 2 ^ 53 then .num (digitsValue cs)
      else if 10 ^ 21 ≤ digitsValue cs then .str value
      else .undecoded value
    else .undecoded value

/-- The call `$(element).data(name)`: the decoded `data-` attribute of the
element, `undefined` when the element has no such attribute. -/
def dataOf (attribs : List (String × String)) (name : String) : DataValue :=
  match attribs.lookup ("data-" ++ name) with
  | some value => parseDataValue value
  | none => .undefined

/-- One `.player-list .player-item` element: its attributes and the selections
`find` gives inside it for the four sub-selectors. -/
structure PlayerItem where
  attribs : List (String × String)
  playerName : Selection
  playerTeam : Selection
  playerPosition : Selection
  playerImage : Selection
  deriving DecidableEq, Repr

/-- The `player` object the search handler builds for one item. -/
structure SearchPlayer where
  id : DataValue
  name : String
  team : String
  position : String
  image : Option String
  deriving DecidableEq, Repr

/-- The object literal `player`. -/
def mkPlayer (element : PlayerItem) : SearchPlayer :=
  { id := dataOf element.attribs "player-id"
    name := jsTrim element.playerName.text
    team := jsTrim element.playerTeam.text
    position := jsTrim element.playerPosition.text
    image := element.playerImage.attr "src" }

/-- The loop of the `/api/search` handler: one `player` pushed per item. -/
def searchHandler (items : List PlayerItem) : List SearchPlayer :=
  items.foldl (fun players element => players ++ [mkPlayer element]) []

/-! ## Serialization by `res.json` -/

/-- An `.attr` result as a value: the text, or `undefined`. -/
def attrValue : Option String → DataValue
  | some s => .str s
  | none => .undefined

/-- The image element, or its `src` attribute, is absent from a selection: the
selection is empty, or its first element has no `src`. -/
def SrcAbsent (sel : Selection) : Prop :=
  sel = [] ∨ ∃ e rest, sel = e :: rest ∧ e.attribs.lookup "src" = none

/-- The properties `JSON.stringify` writes for an object: those whose value is
not `undefined`, in insertion order. -/
def jsonProperties (props : List (String × DataValue)) : List (String × DataValue) :=
  props.filter (fun kv => decide (kv.2 ≠ DataValue.undefined))

/-- The serialized properties of a search `player`. -/
def SearchPlayer.json (p : SearchPlayer) : List (String × DataValue) :=
  jsonProperties
    [("id", p.id), ("name", .str p.name), ("team", .str p.team),
     ("position", .str p.position), ("image", attrValue p.image)]

/-- The serialized properties of a `playerInfo`. -/
def PlayerInfo.json (p : PlayerInfo) : List (String × DataValue) :=
  jsonProperties
    [("id", .str p.id), ("name", .str p.name), ("team", .str p.team),
     ("position", .str p.position), ("birth", .str p.birth), ("height", .str p.height),
     ("weight", .str p.weight), ("image", attrValue p.image)]

/-! ## The baseline projection (`src/public/app.js`) -/

/-- A search item with a digit-only identifier, a name and a team, and
neither a position element nor an image element. -/
def sampleItem : PlayerItem :=
  { attribs := [("class", "player-item"), ("data-player-id", "12345")]
    playerName := [⟨[("class", "player-name")], " Kim "⟩]
    playerTeam := [⟨[("class", "player-team")], "LG"⟩]
    playerPosition := []
    playerImage := [] }

/-- A profile page with a name and a three-row record table, and without an
image element. -/
def sampleProfile : ProfileDocument :=
  { playerName := [⟨[("class", "player-name")], "Kim"⟩]
    playerTeam := [⟨[("class", "player-team")], "LG"⟩]
    playerPosition := []
    playerBirth := []
    playerHeight := []
    playerWeight := []
    playerImage := []
    recordRows :=
      [[⟨[], "2022"⟩, ⟨[], "LG"⟩, ⟨[], "100"⟩],
       [⟨[], "2023"⟩, ⟨[], "LG"⟩, ⟨[], "120"⟩],
       [],
       [⟨[], "2024"⟩, ⟨[], "LG"⟩, ⟨[], "90"⟩]] }

/-- Two candidates with numeric ids, the second one named `Kim`. -/
def sampleCandidates : List PlayerCandidate :=
  [⟨.num 1, "Lee", "KT", "P", none⟩, ⟨.num 12345, "Kim", "LG", "C", none⟩]

/-- A search that answers the sample candidates for every query. -/
def sampleSearch : String → List PlayerCandidate := fun _ => sampleCandidates

/-! ## Lemmas on `find` -/

theorem jsFind_eq_some_iff {α : Type} (p : α → Bool) (xs : List α) (x : α) :
    jsFind p xs = some x ↔ IsFirstWith (fun a => p a = true) xs x := by
  induction xs with
  | nil =>
    constructor
    · intro h; simp [jsFind] at h
    · rintro ⟨before, after, h, -, -⟩
      simp at h
  | cons a as ih =>
    by_cases hpa : p a = true
    · constructor
      · intro h
        simp only [jsFind, hpa, if_true, Option.some.injEq] at h
        subst h
        exact ⟨[], as, rfl, hpa, by simp⟩
      · rintro ⟨before, after, h, hx, hnot⟩
        cases before with
        | nil =>
          simp only [List.nil_append, List.cons.injEq] at h
          obtain ⟨rfl, -⟩ := h
          simp only [jsFind, hpa, if_true]
        | cons b bs =>
          simp only [List.cons_append, List.cons.injEq] at h
          exact absurd hpa (h.1 ▸ hnot b (List.mem_cons_self _ _))
    · constructor
      · intro h
        simp only [jsFind, hpa] at h
        obtain ⟨before, after, h1, h2, h3⟩ := ih.mp h
        refine ⟨a :: before, after, by simp [h1], h2, ?_⟩
        intro y hy
        rcases List.mem_cons.mp hy with rfl | hy
        · exact hpa
        · exact h3 y hy
      · rintro ⟨before, after, h, hx, hnot⟩
        cases before with
        | nil =>
          simp only [List.nil_append, List.cons.injEq] at h
          exact absurd (h.1 ▸ hx) hpa
        | cons b bs =>
          simp only [List.cons_append, List.cons.injEq] at h
          simp only [jsFind, hpa]
          exact ih.mpr ⟨bs, after, h.2, hx, fun y hy => hnot y (List.mem_cons_of_mem _ hy)⟩

theorem jsFind_eq_none_iff {α : Type} (p : α → Bool) (xs : List α) :
    jsFind p xs = none ↔ ∀ x ∈ xs, ¬ p x = true := by
  induction xs with
  | nil => simp [jsFind]
  | cons a as ih =>
    by_cases hpa : p a = true
    · simp [jsFind, hpa]
    · simp [jsFind, hpa, ih]

theorem jsFind_mem {α : Type} (p : α → Bool) (xs : List α) (x : α)
    (h : jsFind p xs = some x) : x ∈ xs := by
  obtain ⟨before, after, h1, -, -⟩ := (jsFind_eq_some_iff p xs x).mp h
  simp [h1]

theorem isFirstWith_unique {α : Type} (P : α → Prop) (xs : List α) (x y : α)
    (hx : IsFirstWith P xs x) (hy : IsFirstWith P xs y) : x = y := by
  classical
  have h1 := (jsFind_eq_some_iff (fun a => decide (P a)) xs x).mpr (by simpa [IsFirstWith] using hx)
  have h2 := (jsFind_eq_some_iff (fun a => decide (P a)) xs y).mpr (by simpa [IsFirstWith] using hy)
  rw [h1] at h2
  exact Option.some.inj h2

/-! ## Candidate selection -/

theorem jsTrim_empty : jsTrim "" = "" := by decide

theorem allDigits_ne_empty (s : String) (h : allDigits s = true) : s ≠ "" := by
  rintro rfl
  simp [allDigits] at h

/-- With a query that is not blank and a non-empty answer of the search,
`findPlayer` gives the match of `find`, or else the first candidate. -/
theorem findPlayer_cons (searchPlayers : String → List PlayerCandidate) (query : String)
    (first : PlayerCandidate) (rest : List PlayerCandidate)
    (ht : jsTrim query ≠ "") (hs : searchPlayers (jsTrim query) = first :: rest) :
    findPlayer searchPlayers query =
      some ((jsFind
        (if allDigits (jsTrim query) then
          fun p => decide (p.id.toJSString = jsTrim query)
        else fun p => decide (p.name = jsTrim query)) (first :: rest)).getD first) := by
  have hq : query ≠ "" := by
    rintro rfl
    exact ht jsTrim_empty
  unfold findPlayer
  simp only [hq, ht, if_false, hs]
  by_cases hd : allDigits (jsTrim query) = true
  · simp only [hd, if_true]
    cases jsFind (fun p => decide (p.id.toJSString = jsTrim query)) (first :: rest) <;> rfl
  · have hd' : allDigits (jsTrim query) = false := by simpa using hd
    simp only [hd', Bool.false_eq_true, if_false]
    cases jsFind (fun p => decide (p.name = jsTrim query)) (first :: rest) <;> rfl

/-- Claim C2: when the trimmed query is one or more decimal digits and the
search answered at least one candidate, `findPlayer` returns the first
candidate whose `id`, converted to a string, is the trimmed query, and the
first candidate of the sequence when no candidate's id matches. -/
theorem findPlayer_id_branch (searchPlayers : String → List PlayerCandidate) (query : String)
    (hd : allDigits (jsTrim query) = true) (hne : searchPlayers (jsTrim query) ≠ []) :
    (∀ p, IsFirstWith (fun c => c.id.toJSString = jsTrim query)
        (searchPlayers (jsTrim query)) p → findPlayer searchPlayers query = some p) ∧
    ((∀ c ∈ searchPlayers (jsTrim query), c.id.toJSString ≠ jsTrim query) →
      findPlayer searchPlayers query = (searchPlayers (jsTrim query)).head?) := by
  have ht := allDigits_ne_empty _ hd
  obtain ⟨first, rest, hs⟩ := List.exists_cons_of_ne_nil hne
  rw [findPlayer_cons searchPlayers query first rest ht hs, hs]
  simp only [hd, if_true]
  constructor
  · intro p hp
    have := (jsFind_eq_some_iff (fun c => decide (c.id.toJSString = jsTrim query))
      (first :: rest) p).mpr (by simpa [IsFirstWith] using hp)
    rw [this]; rfl
  · intro hnone
    have := (jsFind_eq_none_iff (fun c => decide (c.id.toJSString = jsTrim query))
      (first :: rest)).mpr (by simpa using hnone)
    rw [this]; rfl

/-- Claim C3: when the trimmed query is not empty and not made of decimal
digits only, and the search answered at least one candidate, `findPlayer`
returns the first candidate whose `name` equals the trimmed query, wherever it
stands in the sequence, and the first candidate when no name equals it. -/
theorem findPlayer_name_branch (searchPlayers : String → List PlayerCandidate)
    (query : String) (ht : jsTrim query ≠ "") (hd : allDigits (jsTrim query) = false)
    (hne : searchPlayers (jsTrim query) ≠ []) :
    (∀ p, IsFirstWith (fun c => c.name = jsTrim query)
        (searchPlayers (jsTrim query)) p → findPlayer searchPlayers query = some p) ∧
    ((∀ c ∈ searchPlayers (jsTrim query), c.name ≠ jsTrim query) →
      findPlayer searchPlayers query = (searchPlayers (jsTrim query)).head?) := by
  obtain ⟨first, rest, hs⟩ := List.exists_cons_of_ne_nil hne
  rw [findPlayer_cons searchPlayers query first rest ht hs, hs]
  simp only [hd, Bool.false_eq_true, if_false]
  constructor
  · intro p hp
    have := (jsFind_eq_some_iff (fun c => decide (c.name = jsTrim query))
      (first :: rest) p).mpr (by simpa [IsFirstWith] using hp)
    rw [this]; rfl
  · intro hnone
    have := (jsFind_eq_none_iff (fun c => decide (c.name = jsTrim query))
      (first :: rest)).mpr (by simpa using hnone)
    rw [this]; rfl

/-- Claim C10: `findPlayer` returns no player exactly when the query is empty
after trimming or the search answered no candidate; every player it returns
is one of the candidates the search answered for the trimmed query. -/
theorem findPlayer_none_iff (searchPlayers : String → List PlayerCandidate) (query : String) :
    (findPlayer searchPlayers query = none ↔
      (jsTrim query = "" ∨ searchPlayers (jsTrim query) = [])) ∧
    (∀ p, findPlayer searchPlayers query = some p → p ∈ searchPlayers (jsTrim query)) := by
  by_cases ht : jsTrim query = ""
  · have hnone : findPlayer searchPlayers query = none := by
      unfold findPlayer
      by_cases hq : query = ""
      · simp [hq]
      · simp [hq, ht]
    simp [hnone, ht]
  · cases hs : searchPlayers (jsTrim query) with
    | nil =>
      have hq : query ≠ "" := by
        rintro rfl
        exact ht jsTrim_empty
      have hnone : findPlayer searchPlayers query = none := by
        unfold findPlayer
        simp [hq, ht, hs]
      simp [hnone]
    | cons first rest =>
      rw [findPlayer_cons searchPlayers query first rest ht hs]
      refine ⟨by simp [ht], ?_⟩
      intro p hp
      simp only [Option.some.injEq] at hp
      subst hp
      generalize hf : jsFind _ (first :: rest) = found
      cases found with
      | none => simp
      | some x => exact jsFind_mem _ _ _ hf

/-! ## Career construction -/

theorem extractCareer_foldl {F : Type} (parseFloatOrZero : String → F)
    (rows : List Selection) (acc : List (SeasonStat F)) :
    rows.foldl
        (fun stats columns =>
          if columns.length > 0 then stats ++ [mkStat parseFloatOrZero columns] else stats)
        acc =
      acc ++ (rows.filter (fun columns => decide (0 < columns.length))).map
        (mkStat parseFloatOrZero) := by
  induction rows generalizing acc with
  | nil => simp
  | cons columns rows ih =>
    simp only [List.foldl_cons, ih]
    by_cases h : 0 < columns.length
    · simp [h, List.filter_cons]
    · simp [h, List.filter_cons]

/-- Claim C9: the career holds one entry for each body row that has at least
one cell and none for a row without cells, in the order of the rows; no rows
give the empty career. -/
theorem extractCareer_spec {F : Type} (parseFloatOrZero : String → F)
    (rows : List Selection) :
    extractCareer parseFloatOrZero rows =
        (rows.filter (fun columns => decide (0 < columns.length))).map
          (mkStat parseFloatOrZero) ∧
      extractCareer parseFloatOrZero ([] : List Selection) = [] := by
  constructor
  · unfold extractCareer
    rw [extractCareer_foldl]
    simp
  · rfl

/-! ## Season selection -/

/-- Claim C1: `stats` is the first entry of the career, in document order,
whose `season` text equals the string form of the requested season, the empty
object exactly when no entry's season equals it, and the handler returns the
career it extracted as it is. -/
theorem selectSeason_spec {F : Type} (career : List (SeasonStat F)) (season : SeasonParam) :
    (∀ stat, selectSeason career season = .row stat ↔
      IsFirstWith (fun e => e.season = season.toJSString) career stat) ∧
    (selectSeason career season = .emptyObject ↔
      ∀ e ∈ career, e.season ≠ season.toJSString) ∧
    (∀ (parseFloatOrZero : String → F) (doc : ProfileDocument) (id : String),
      (playerHandler parseFloatOrZero doc id season).career =
          extractCareer parseFloatOrZero doc.recordRows ∧
        (playerHandler parseFloatOrZero doc id season).stats =
          selectSeason (extractCareer parseFloatOrZero doc.recordRows) season) := by
  have hsome : ∀ stat, jsFind (fun e => decide (e.season = season.toJSString)) career = some stat ↔
      IsFirstWith (fun e => e.season = season.toJSString) career stat := by
    intro stat
    rw [jsFind_eq_some_iff]
    simp [IsFirstWith]
  have hnone : jsFind (fun e => decide (e.season = season.toJSString)) career = none ↔
      ∀ e ∈ career, e.season ≠ season.toJSString := by
    rw [jsFind_eq_none_iff]
    simp
  refine ⟨?_, ?_, fun _ _ _ => ⟨rfl, rfl⟩⟩
  · intro stat
    rw [← hsome]
    unfold selectSeason
    cases jsFind (fun e => decide (e.season = season.toJSString)) career <;> simp
  · rw [← hnone]
    unfold selectSeason
    cases jsFind (fun e => decide (e.season = season.toJSString)) career <;> simp

/-! ## Decimal digits -/

theorem toDigitsCore_append (n : Nat) : ∀ (fuel : Nat) (ds : List Char), n < fuel →
    Nat.toDigitsCore 10 fuel n ds = Nat.toDigits 10 n ++ ds := by
  induction n using Nat.strong_induction_on with
  | _ n ih =>
    intro fuel ds hlt
    cases fuel with
    | zero => omega
    | succ f =>
      unfold Nat.toDigits
      simp only [Nat.toDigitsCore]
      by_cases h0 : n / 10 = 0
      · simp [h0]
      · have hlt' : n / 10 < n := by omega
        simp only [h0, if_false]
        rw [ih (n / 10) hlt' f _ (by omega), ih (n / 10) hlt' n _ hlt']
        simp

theorem toDigits_of_lt (n : Nat) (h : n < 10) : Nat.toDigits 10 n = [Nat.digitChar n] := by
  unfold Nat.toDigits
  simp only [Nat.toDigitsCore]
  have h0 : n / 10 = 0 := by omega
  have h1 : n % 10 = n := by omega
  simp [h0, h1]

theorem toDigits_of_ge (n : Nat) (h : 10 ≤ n) :
    Nat.toDigits 10 n = Nat.toDigits 10 (n / 10) ++ [Nat.digitChar (n % 10)] := by
  have h0 : n / 10 ≠ 0 := by omega
  have hlt' : n / 10 < n := by omega
  conv_lhs => unfold Nat.toDigits
  simp only [Nat.toDigitsCore, h0, if_false]
  exact toDigitsCore_append (n / 10) n _ hlt'

theorem digitChar_isDecimalDigit (d : Nat) (h : d < 10) :
    isDecimalDigit (Nat.digitChar d) = true := by
  interval_cases d <;> decide

theorem digitValue_digitChar (d : Nat) (h : d < 10) : digitValue (Nat.digitChar d) = d := by
  interval_cases d <;> decide

theorem digitsValue_append (cs : List Char) (c : Char) :
    digitsValue (cs ++ [c]) = 10 * digitsValue cs + digitValue c := by
  simp [digitsValue, List.foldl_append]

theorem toDigits_all_digits (n : Nat) : ∀ c ∈ Nat.toDigits 10 n, isDecimalDigit c = true := by
  induction n using Nat.strong_induction_on with
  | _ n ih =>
    by_cases h : n < 10
    · rw [toDigits_of_lt n h]
      simpa using digitChar_isDecimalDigit n h
    · rw [toDigits_of_ge n (by omega)]
      intro c hc
      rcases List.mem_append.mp hc with hc | hc
      · exact ih (n / 10) (by omega) c hc
      · simp only [List.mem_singleton] at hc
        subst hc
        exact digitChar_isDecimalDigit _ (Nat.mod_lt _ (by decide))

theorem digitsValue_toDigits (n : Nat) : digitsValue (Nat.toDigits 10 n) = n := by
  induction n using Nat.strong_induction_on with
  | _ n ih =>
    by_cases h : n < 10
    · rw [toDigits_of_lt n h]
      simp [digitsValue, digitValue_digitChar n h]
    · rw [toDigits_of_ge n (by omega), digitsValue_append, ih (n / 10) (by omega),
        digitValue_digitChar _ (Nat.mod_lt _ (by decide))]
      omega

theorem toDigits_ne_nil (n : Nat) : Nat.toDigits 10 n ≠ [] := by
  by_cases h : n < 10
  · rw [toDigits_of_lt n h]; simp
  · rw [toDigits_of_ge n (by omega)]; simp

/-- The first digit printed for a number is `0` only for the number zero. -/
theorem toDigits_head (n : Nat) (hn : 0 < n) :
    ∃ d rest, Nat.toDigits 10 n = Nat.digitChar d :: rest ∧ 0 < d ∧ d < 10 := by
  induction n using Nat.strong_induction_on with
  | _ n ih =>
    by_cases h : n < 10
    · exact ⟨n, [], toDigits_of_lt n h, hn, h⟩
    · obtain ⟨d, rest, hd, h1, h2⟩ := ih (n / 10) (by omega) (by omega)
      exact ⟨d, rest ++ [Nat.digitChar (n % 10)], by rw [toDigits_of_ge n (by omega), hd]; rfl, h1, h2⟩

/-! ## Trimming -/

theorem searchHandler_foldl (items : List PlayerItem) (acc : List SearchPlayer) :
    items.foldl (fun players element => players ++ [mkPlayer element]) acc =
      acc ++ items.map mkPlayer := by
  induction items generalizing acc with
  | nil => simp
  | cons element items ih => simp [List.foldl_cons, ih]

/-- The search handler answers one candidate per item, in document order. -/
theorem searchHandler_eq_map (items : List PlayerItem) :
    searchHandler items = items.map mkPlayer := by
  unfold searchHandler
  rw [searchHandler_foldl]
  simp

theorem isDecimalDigit_isNumberChar (c : Char) (h : isDecimalDigit c = true) :
    isNumberChar c = true := by
  simp [isNumberChar, h]

theorem toDigits_no_leading_zero (n : Nat) :
    (decide (1 < (Nat.toDigits 10 n).length) && (Nat.toDigits 10 n).head? == some '0') = false := by
  rcases Nat.eq_zero_or_pos n with rfl | hn
  · decide
  · obtain ⟨d, rest, hd, h1, h2⟩ := toDigits_head n hn
    have : Nat.digitChar d ≠ '0' := by
      interval_cases d <;> decide
    simp [hd, this]

/-- The decimal print of a number below `2 ^ 53` is decoded as that number. -/
theorem parseDataValue_toDigits (n : Nat) (hn : n < 2 ^ 53) :
    parseDataValue (String.mk (Nat.toDigits 10 n)) = .num n := by
  have hall := toDigits_all_digits n
  have hne := toDigits_ne_nil n
  have hword : ∀ w : String, (∃ c ∈ w.data, isDecimalDigit c = false) → w.data ≠ [] →
      String.mk (Nat.toDigits 10 n) ≠ w := by
    rintro w ⟨c, hc, hcd⟩ - rfl
    rw [hall c hc] at hcd
    exact Bool.noConfusion hcd
  have h1 := hword "null" ⟨'n', by decide, by decide⟩ (by decide)
  have h2 := hword "true" ⟨'t', by decide, by decide⟩ (by decide)
  have h3 := hword "false" ⟨'f', by decide, by decide⟩ (by decide)
  have hany : (Nat.toDigits 10 n).any (fun c => !isNumberChar c) = false := by
    rw [List.any_eq_false]
    intro c hc
    simp [isDecimalDigit_isNumberChar c (hall c hc)]
  have hallb : (Nat.toDigits 10 n).all isDecimalDigit = true := List.all_eq_true.mpr hall
  have hemp : (Nat.toDigits 10 n).isEmpty = false := by
    cases h : Nat.toDigits 10 n with
    | nil => exact absurd h hne
    | cons _ _ => rfl
  unfold parseDataValue
  simp only [h1, h2, h3, if_false, hemp, hany, Bool.or_self, Bool.false_eq_true, hallb, if_true,
    toDigits_no_leading_zero n, digitsValue_toDigits n, hn]

/-- Claim C7, as the code has it: the search handler builds one candidate per
item, and the `id` of a candidate is the decoded value of the
`data-player-id` attribute.  It is `undefined` when the item has no such
attribute, the number `n` when the attribute text is the decimal print of a
number `n` below `2 ^ 53`, and the attribute text itself, a string, when that
text is none of `null`, `true`, `false`, has a character that no number
prints, and is not shaped like JSON. -/
theorem mkPlayer_id (items : List PlayerItem) (element : PlayerItem) :
    searchHandler items = items.map mkPlayer ∧
    (element.attribs.lookup "data-player-id" = none → (mkPlayer element).id = .undefined) ∧
    (∀ n, n < 2 ^ 53 →
      element.attribs.lookup "data-player-id" = some (String.mk (Nat.toDigits 10 n)) →
      (mkPlayer element).id = .num n) ∧
    (∀ value, element.attribs.lookup "data-player-id" = some value →
      value ≠ "null" → value ≠ "true" → value ≠ "false" →
      (∃ c ∈ value.data, isNumberChar c = false) → looksLikeJSON value.data = false →
      (mkPlayer element).id = .str value) := by
  have hkey : "data-" ++ "player-id" = "data-player-id" := by decide
  refine ⟨searchHandler_eq_map items, ?_, ?_, ?_⟩
  · intro h
    simp only [mkPlayer, dataOf, hkey, h]
  · intro n hn h
    simp only [mkPlayer, dataOf, hkey, h]
    exact parseDataValue_toDigits n hn
  · rintro value h h1 h2 h3 ⟨c, hc, hcn⟩ hjson
    have hany : value.data.any (fun c => !isNumberChar c) = true := by
      rw [List.any_eq_true]
      exact ⟨c, hc, by simp [hcn]⟩
    simp only [mkPlayer, dataOf, hkey, h]
    unfold parseDataValue
    simp only [h1, h2, h3, if_false, hany, Bool.or_true, if_true, hjson, Bool.false_eq_true]

/-- A sample of claim C7: the sample item carries
`data-player-id="12345"`, and its `id` is the number 12345. -/
theorem mkPlayer_id_witness :
    12345 < 2 ^ 53 ∧
    sampleItem.attribs.lookup "data-player-id" = some (String.mk (Nat.toDigits 10 12345)) ∧
    (mkPlayer sampleItem).id = .num 12345 :=
  ⟨by decide, by decide, (mkPlayer_id [sampleItem] sampleItem).2.2.1 12345 (by decide) (by decide)⟩

/-- The claim C7 fails at a digit-only identifier: for the sample item, with
`data-player-id="12345"`, the `id` is a number and not a string, in the object
and in its serialized form. -/
theorem mkPlayer_id_counterexample :
    (mkPlayer sampleItem).id = .num 12345 ∧
    (¬ ∃ s, (mkPlayer sampleItem).id = .str s) ∧
    (mkPlayer sampleItem).json.lookup "id" = some (.num 12345) :=
  ⟨by decide, by
    rw [show (mkPlayer sampleItem).id = .num 12345 by decide]
    rintro ⟨s, hs⟩
    exact DataValue.noConfusion hs, by decide⟩

/-! ## Image and text defaults -/

theorem attr_of_srcAbsent (sel : Selection) (h : SrcAbsent sel) : sel.attr "src" = none := by
  rcases h with rfl | ⟨e, rest, rfl, he⟩
  · rfl
  · exact he

theorem text_of_nil : jsTrim (Selection.text []) = "" := by decide

theorem searchPlayer_json_image (p : SearchPlayer) (h : p.image = none) :
    p.json.lookup "image" = none := by
  unfold SearchPlayer.json jsonProperties
  rw [h]
  cases hid : p.id <;> simp [List.filter, List.lookup, attrValue]

theorem playerInfo_json_image (p : PlayerInfo) (h : p.image = none) :
    p.json.lookup "image" = none := by
  unfold PlayerInfo.json jsonProperties
  rw [h]
  simp [List.filter, List.lookup, attrValue]

/-- Claim C8, as the code has it: when the image element or its `src`
attribute is absent, the `image` of a search candidate and of a profile is
`undefined`, and the serialized record has no `image` property; a text field
whose element is absent is the empty string. -/
theorem image_absent :
    (∀ element : PlayerItem, SrcAbsent element.playerImage →
      attrValue (mkPlayer element).image = .undefined ∧
      (mkPlayer element).json.lookup "image" = none) ∧
    (∀ (doc : ProfileDocument) (id : String), SrcAbsent doc.playerImage →
      attrValue (mkPlayerInfo doc id).image = .undefined ∧
      (mkPlayerInfo doc id).json.lookup "image" = none) ∧
    (∀ element : PlayerItem,
      (element.playerName = [] → (mkPlayer element).name = "") ∧
      (element.playerTeam = [] → (mkPlayer element).team = "") ∧
      (element.playerPosition = [] → (mkPlayer element).position = "")) ∧
    (∀ (doc : ProfileDocument) (id : String),
      (doc.playerName = [] → (mkPlayerInfo doc id).name = "") ∧
      (doc.playerTeam = [] → (mkPlayerInfo doc id).team = "") ∧
      (doc.playerPosition = [] → (mkPlayerInfo doc id).position = "") ∧
      (doc.playerBirth = [] → (mkPlayerInfo doc id).birth = "") ∧
      (doc.playerHeight = [] → (mkPlayerInfo doc id).height = "") ∧
      (doc.playerWeight = [] → (mkPlayerInfo doc id).weight = "")) := by
  refine ⟨?_, ?_, ?_, ?_⟩
  · intro element h
    have himg : (mkPlayer element).image = none := attr_of_srcAbsent _ h
    exact ⟨by rw [himg]; rfl, searchPlayer_json_image _ himg⟩
  · intro doc id h
    have himg : (mkPlayerInfo doc id).image = none := attr_of_srcAbsent _ h
    exact ⟨by rw [himg]; rfl, playerInfo_json_image _ himg⟩
  · intro element
    refine ⟨?_, ?_, ?_⟩ <;> (intro h; simp only [mkPlayer, h]; exact text_of_nil)
  · intro doc id
    refine ⟨?_, ?_, ?_, ?_, ?_, ?_⟩ <;> (intro h; simp only [mkPlayerInfo, h]; exact text_of_nil)

/-- A sample of claim C8: the sample item has no image element, and
its serialized record has no `image` property. -/
theorem image_absent_witness :
    SrcAbsent sampleItem.playerImage ∧ (mkPlayer sampleItem).json.lookup "image" = none :=
  ⟨Or.inl rfl, (image_absent.1 sampleItem (Or.inl rfl)).2⟩

/-- The claim C8 fails where the image is absent: for the sample item and the
sample profile page, which have no image element, `image` is not `null`, and
the serialized record has no `image` property at all. -/
theorem image_counterexample :
    SrcAbsent sampleItem.playerImage ∧
    attrValue (mkPlayer sampleItem).image ≠ .null ∧
    (mkPlayer sampleItem).json.lookup "image" ≠ some .null ∧
    (mkPlayer sampleItem).json.map Prod.fst = ["id", "name", "team", "position"] ∧
    SrcAbsent sampleProfile.playerImage ∧
    attrValue (mkPlayerInfo sampleProfile "12345").image ≠ .null ∧
    (mkPlayerInfo sampleProfile "12345").json.lookup "image" ≠ some .null :=
  ⟨Or.inl rfl, by decide, by decide, by decide, Or.inl rfl, by decide, by decide⟩

/-! ## The baseline projection -/

/-- A sample of claim C2: the query `12345`, with blanks around
it, picks the second sample candidate, whose id is the number 12345. -/
theorem findPlayer_id_branch_witness :
    allDigits (jsTrim " 12345 ") = true ∧ sampleSearch (jsTrim " 12345 ") ≠ [] ∧
    findPlayer sampleSearch " 12345 " = some ⟨.num 12345, "Kim", "LG", "C", none⟩ :=
  ⟨by decide, by decide,
    (findPlayer_id_branch sampleSearch " 12345 " (by decide) (by decide)).1
      ⟨.num 12345, "Kim", "LG", "C", none⟩
      ⟨[⟨.num 1, "Lee", "KT", "P", none⟩], [], by decide, by decide, by decide⟩⟩

/-- A sample of claim C3: the query `Kim` picks the second
sample candidate, which bears that name. -/
theorem findPlayer_name_branch_witness :
    jsTrim "Kim" ≠ "" ∧ allDigits (jsTrim "Kim") = false ∧ sampleSearch (jsTrim "Kim") ≠ [] ∧
    findPlayer sampleSearch "Kim" = some ⟨.num 12345, "Kim", "LG", "C", none⟩ :=
  ⟨by decide, by decide, by decide,
    (findPlayer_name_branch sampleSearch "Kim" (by decide) (by decide) (by decide)).1
      ⟨.num 12345, "Kim", "LG", "C", none⟩
      ⟨[⟨.num 1, "Lee", "KT", "P", none⟩], [], by decide, by decide, by decide⟩⟩

/-- A sample of claim C10: a query of blanks gives no player. -/
theorem findPlayer_none_iff_witness :
    jsTrim "   " = "" ∧ findPlayer sampleSearch "   " = none :=
  ⟨by decide, (findPlayer_none_iff sampleSearch "   ").1.mpr (Or.inl (by decide))⟩

/-- A sample of claim C1: in the career of the sample profile, with
seasons 2022, 2023 and 2024, no entry has season 2099, and the request for
2099 gives the empty object. -/
theorem selectSeason_spec_witness :
    (∀ e ∈ extractCareer (fun _ => ()) sampleProfile.recordRows,
      e.season ≠ (SeasonParam.currentYear 2099).toJSString) ∧
    selectSeason (extractCareer (fun _ => ()) sampleProfile.recordRows) (.currentYear 2099) =
      .emptyObject :=
  ⟨by decide,
    (selectSeason_spec (extractCareer (fun _ => ()) sampleProfile.recordRows)
      (.currentYear 2099)).2.1.mpr (by decide)⟩

end AVGP
